import Mathlib

/-!
Shallow embedding of the Expense-Tracker Flask application (`app.py`).

Conventions of the embedding:
* SQLite tables become Lean lists of row structures; `AUTOINCREMENT` ids are
  threaded explicitly (`nextExpenseId`, `nextBudgetId`).
* The Flask session is `session : Option String` (the value of
  `session["user"]` when present).
* Wall-clock time is a `Nat` counting seconds; `timedelta(minutes=5)` is
  `5 * 60` seconds.
* Monetary values use `ℚ` for the real-number arithmetic the program performs
  on Python floats.
* Because SQLite columns are dynamically typed and `edit` stores the raw form
  text while `add` stores a parsed float, the `amount` cell of an expense row
  is a sum type `Val` of a number or a raw string.
* `werkzeug`'s salted hash verification is modelled as string equality with
  the stored credential; only the success/failure outcome of verification is
  observable in the program.
* An unguarded `session["user"]` lookup on a request with no session raises
  `KeyError` in Flask, producing a server error response before any SQL runs;
  this is the `Response.serverError` outcome.
-/

namespace ExpenseTracker

/-- Constant `MAX_LOGIN_ATTEMPTS = 3` from the settings section of `app.py`. -/
def MAX_LOGIN_ATTEMPTS : Nat := 3

/-- Constant `LOCK_MINUTES = 5` from the settings section of `app.py`. -/
def LOCK_MINUTES : Nat := 5

/-- The lockout window in seconds: `timedelta(minutes=LOCK_MINUTES)`. -/
def lockWindow : Nat := LOCK_MINUTES * 60

/-- A dynamically-typed SQLite cell for the `amount` column of `expenses`:
`add` stores a parsed float (`num`), `edit` stores the raw form text (`str`). -/
inductive Val where
  | num (q : ℚ)
  | str (s : String)
  deriving DecidableEq

/-- Numeric value of a run of decimal digit characters. -/
def digitsVal (l : List Char) : Nat :=
  l.foldl (fun a c => a * 10 + (c.toNat - 48)) 0

/-- Negate when the parsed sign was `-`. -/
def applySign (neg : Bool) (q : ℚ) : ℚ :=
  if neg then -q else q

/-- Modelled: Python `float(x)` applied to a string, restricted to the plain
decimal forms `[+-]? digits [. digits]?` and `[+-]? . digits` that the
program's inputs use.  Exponents, `inf`/`nan` and surrounding whitespace are
treated as unparsable (`none`), like every other malformed string. -/
def pyFloat? (s : String) : Option ℚ :=
  let cs := s.toList
  let signBody : Bool × List Char :=
    match cs with
    | '-' :: rest => (true, rest)
    | '+' :: rest => (false, rest)
    | _ => (false, cs)
  let neg := signBody.1
  let body := signBody.2
  let intPart := body.takeWhile (fun c => c.isDigit)
  let rest := body.dropWhile (fun c => c.isDigit)
  match rest with
  | [] =>
    if intPart.isEmpty then none
    else some (applySign neg (digitsVal intPart))
  | '.' :: frac =>
    if frac.all (fun c => c.isDigit) && !(intPart.isEmpty && frac.isEmpty) then
      some (applySign neg ((digitsVal intPart : ℚ) +
        (digitsVal frac : ℚ) / ((10 : ℚ) ^ frac.length)))
    else none
  | _ => none

/-- Helper `parse_float_safe` applied to a string argument (the form-input
case): `float(x)` if it parses, else `0.0`. -/
def parse_float_safe_str (s : String) : ℚ :=
  (pyFloat? s).getD 0

/-- Helper `parse_float_safe` applied to a stored `amount` cell.  On a float
cell `float` is the identity; on a raw-text cell it parses leniently. -/
def parse_float_safe (v : Val) : ℚ :=
  match v with
  | .num q => q
  | .str s => parse_float_safe_str s

/-- Two decimal digit characters read as a number (helper for date parsing). -/
def toNat2 (a b : Char) : Nat :=
  (a.toNat - 48) * 10 + (b.toNat - 48)

/-- Modelled: SQLite `strftime(%Y-%m, date)` restricted to the ISO
`YYYY-MM-DD` strings the program stores: the year-month part for a
well-formed date, `none` (SQL `NULL`, which never compares equal) otherwise.
Month must be 01–12 and day 01–31; finer calendar validity is irrelevant to
the claims. -/
def strftimeYM (d : String) : Option String :=
  match d.toList with
  | [y1, y2, y3, y4, '-', m1, m2, '-', d1, d2] =>
    if ([y1, y2, y3, y4, m1, m2, d1, d2].all (fun c => c.isDigit))
        && decide (1 ≤ toNat2 m1 m2) && decide (toNat2 m1 m2 ≤ 12)
        && decide (1 ≤ toNat2 d1 d2) && decide (toNat2 d1 d2 ≤ 31) then
      some (String.mk [y1, y2, y3, y4, '-', m1, m2])
    else none
  | _ => none

/-- A row of the `users` table: username, stored credential, failed-attempt
counter, optional lock timestamp. -/
structure UserRec where
  username : String
  password : String
  attempts : Nat
  lock_time : Option Nat
  deriving DecidableEq

/-- The `users` table. -/
abbrev UserDb := List UserRec

/-- Query `SELECT * FROM users WHERE username=?` followed by `fetchone()`. -/
def findUser (db : UserDb) (u : String) : Option UserRec :=
  db.find? (fun r => r.username == u)

/-- Statement `UPDATE users SET ... WHERE username=?`: apply `f` to every row whose
username matches (the column is `UNIQUE`, so at most one in practice). -/
def updateUser (db : UserDb) (u : String) (f : UserRec → UserRec) : UserDb :=
  db.map (fun r => if r.username == u then f r else r)

/-- Outcome of a login attempt, following the spec's error taxonomy:
the "Invalid Username/Password" and "Wrong Password" flashes are
`invalidCredential`, the two lock flashes are `accountLocked`. -/
inductive LoginResult where
  | invalidCredential
  | accountLocked
  | success
  deriving DecidableEq

/-- Modelled: `check_password_hash(stored, p)`.  The salted one-way hash is
abstracted to the credential itself, preserving exactly the success/failure
outcome of verification. -/
def check_password_hash (stored p : String) : Bool :=
  stored == p

/-- True when `user["lock_time"]` is set and `datetime.now() < lock + timedelta(minutes=5)`. -/
def lockActive (r : UserRec) (now : Nat) : Bool :=
  match r.lock_time with
  | some lock => now < lock + lockWindow
  | none => false

/-- The POST branch of the `login` route, acting on the `users` table.
Returns the outcome and the updated table.  (Session establishment on
success, and redirects, happen in the route glue and are not needed for the
account-state claims.) -/
def login (db : UserDb) (u p : String) (now : Nat) : LoginResult × UserDb :=
  match findUser db u with
  | none => (.invalidCredential, db)
  | some user =>
    if lockActive user now then
      (.accountLocked, db)
    else if check_password_hash user.password p then
      (.success, updateUser db u (fun r => { r with attempts := 0, lock_time := none }))
    else
      let attempts := user.attempts + 1
      if MAX_LOGIN_ATTEMPTS ≤ attempts then
        (.accountLocked,
          updateUser db u (fun r => { r with attempts := attempts, lock_time := some now }))
      else
        (.invalidCredential, updateUser db u (fun r => { r with attempts := attempts }))

/-- A row of the `expenses` table. -/
structure Expense where
  id : Nat
  user : String
  amount : Val
  category : String
  date : String
  deriving DecidableEq

/-- A row of the `budgets` table. -/
structure BudgetRow where
  id : Nat
  user : String
  month : String
  amount : ℚ
  deriving DecidableEq

/-- The whole application state: the three tables, the session, and the
`AUTOINCREMENT` counters. -/
structure AppState where
  users : UserDb
  expenses : List Expense
  budgets : List BudgetRow
  session : Option String
  nextExpenseId : Nat
  nextBudgetId : Nat
  deriving DecidableEq

/-- Query `SELECT * FROM expenses WHERE user=?`. -/
def userExpenses (st : AppState) (u : String) : List Expense :=
  st.expenses.filter (fun e => e.user == u)

/-- Clause `... AND strftime(%Y-%m, date)=?` on an already-fetched list. -/
def filterMonth (es : List Expense) (m : String) : List Expense :=
  es.filter (fun e => strftimeYM e.date == some m)

/-- `defaultdict(float)` accumulation: `d[k] += v`, with Python-dict
insertion-order semantics on an association list. -/
def accumKey (acc : List (String × ℚ)) (k : String) (v : ℚ) : List (String × ℚ) :=
  match acc with
  | [] => [(k, v)]
  | (k0, v0) :: rest =>
    if k0 == k then (k0, v0 + v) :: rest
    else (k0, v0) :: accumKey rest k v

/-- Sum `total = sum(parse_float_safe(e["amount"]) for e in expenses)`. -/
def listTotal (es : List Expense) : ℚ :=
  (es.map (fun e => parse_float_safe e.amount)).sum

/-- Accumulation `cat[e["category"]] += parse_float_safe(e["amount"])` over the working set. -/
def catTotals (es : List Expense) : List (String × ℚ) :=
  es.foldl (fun acc e => accumKey acc e.category (parse_float_safe e.amount)) []

/-- Accumulation `month_tot[r["date"][:7]] += parse_float_safe(r["amount"])` over a row set. -/
def monthTotals (es : List Expense) : List (String × ℚ) :=
  es.foldl (fun acc e => accumKey acc (e.date.take 7) (parse_float_safe e.amount)) []

/-- Query `SELECT amount FROM budgets WHERE user=? AND month=?` with `fetchone()`. -/
def findBudget (bs : List BudgetRow) (u m : String) : Option BudgetRow :=
  bs.find? (fun b => b.user == u && b.month == m)

/-- Python `mon = month if month else datetime.now().strftime(%Y-%m)`. -/
def effectiveMonth (monthQ : Option String) (nowMonth : String) : String :=
  match monthQ with
  | some m => m
  | none => nowMonth

/-- Python `alert = bool(budget and total >= budget)` with Python truthiness:
both `None` and `0.0` are falsy, so a zero budget short-circuits to `False`. -/
def pyBudgetAlert (budget : Option ℚ) (total : ℚ) : Bool :=
  match budget with
  | none => false
  | some b => if b = 0 then false else decide (b ≤ total)

/-- Modelled from the spec (for comparison with `pyBudgetAlert`): "alert
triggers (boolean true) when a budget exists and Total ≥ budget amount". -/
def specBudgetAlert (budget : Option ℚ) (total : ℚ) : Bool :=
  match budget with
  | none => false
  | some b => decide (b ≤ total)

/-- Everything the dashboard template receives. -/
structure DashboardData where
  shown : List Expense
  total : ℚ
  category_amounts : List (String × ℚ)
  monthly_totals : List (String × ℚ)
  budget : Option ℚ
  budget_alert : Bool
  deriving DecidableEq

/-- The aggregation performed by the `dashboard` route for `user`, with
optional month filter `monthQ` and current calendar month `nowMonth`. -/
def dashboardData (st : AppState) (user : String) (monthQ : Option String)
    (nowMonth : String) : DashboardData :=
  let expenses :=
    match monthQ with
    | some m => filterMonth (userExpenses st user) m
    | none => userExpenses st user
  let total := listTotal expenses
  let cat := catTotals expenses
  let month_tot := monthTotals (userExpenses st user)
  let mon := effectiveMonth monthQ nowMonth
  let budget := (findBudget st.budgets user mon).map (fun b => b.amount)
  { shown := expenses
    total := total
    category_amounts := cat
    monthly_totals := month_tot
    budget := budget
    budget_alert := pyBudgetAlert budget total }

/-- HTTP-level outcome of a route. -/
inductive Response where
  | redirect (path : String)
  | page (template : String) (dash : Option DashboardData)
  | jsonOk
  | jsonDone
  | file (name : String)
  | serverError
  deriving DecidableEq

/-- The `dashboard` route: session-guarded, read-only. -/
def dashboard (st : AppState) (monthQ : Option String) (nowMonth : String) :
    Response × AppState :=
  match st.session with
  | none => (.redirect "/", st)
  | some user =>
    (.page "dashboard.html" (some (dashboardData st user monthQ nowMonth)), st)

/-- The POST branch of the `add` route: session-guarded; the amount form
field is coerced by `parse_float_safe` and stored as a float. -/
def add (st : AppState) (amount category date : String) : Response × AppState :=
  match st.session with
  | none => (.redirect "/", st)
  | some user =>
    let e : Expense :=
      { id := st.nextExpenseId
        user := user
        amount := .num (parse_float_safe_str amount)
        category := category
        date := date }
    (.redirect "/dashboard",
      { st with
          expenses := st.expenses ++ [e]
          nextExpenseId := st.nextExpenseId + 1 })

/-- The `delete` route.  It has no session guard: it reads `session["user"]`
directly, so with no active session the lookup raises `KeyError` (server
error) before the `DELETE` statement runs. -/
def delete (st : AppState) (id : Nat) : Response × AppState :=
  match st.session with
  | none => (.serverError, st)
  | some user =>
    (.redirect "/dashboard",
      { st with
          expenses := st.expenses.filter (fun e => !(e.id == id && e.user == user)) })

/-- The POST branch of the `edit` route: session-guarded; the amount form
field is stored as raw text (`category` is the already-resolved
custom-or-listed category value). -/
def edit (st : AppState) (id : Nat) (amount category date : String) :
    Response × AppState :=
  match st.session with
  | none => (.redirect "/", st)
  | some user =>
    (.redirect "/dashboard",
      { st with
          expenses := st.expenses.map (fun e =>
            if e.id == id && e.user == user then
              { e with amount := .str amount, category := category, date := date }
            else e) })

/-- Effect of one `set_budget` on the `budgets` table:
`DELETE FROM budgets WHERE user=? AND month=?` then `INSERT`. -/
def budgetsAfterSet (bs : List BudgetRow) (nid : Nat) (u m : String) (a : ℚ) :
    List BudgetRow :=
  bs.filter (fun b => !(b.user == u && b.month == m)) ++
    [{ id := nid, user := u, month := m, amount := a }]

/-- The `set_budget` route.  No session guard: `session["user"]` raises with
no session.  The JSON `amount` is taken as a number. -/
def set_budget (st : AppState) (month : String) (amount : ℚ) :
    Response × AppState :=
  match st.session with
  | none => (.serverError, st)
  | some user =>
    (.jsonOk,
      { st with
          budgets := budgetsAfterSet st.budgets st.nextBudgetId user month amount
          nextBudgetId := st.nextBudgetId + 1 })

/-- The `clear_month` route.  No session guard. -/
def clear_month (st : AppState) (month : String) : Response × AppState :=
  match st.session with
  | none => (.serverError, st)
  | some user =>
    (.jsonOk,
      { st with
          expenses := st.expenses.filter
            (fun e => !(e.user == user && strftimeYM e.date == some month)) })

/-- The `clear_all` route.  No session guard. -/
def clear_all (st : AppState) : Response × AppState :=
  match st.session with
  | none => (.serverError, st)
  | some user =>
    (.jsonDone,
      { st with expenses := st.expenses.filter (fun e => !(e.user == user)) })

/-- The `export_pdf` route: session-guarded, read-only, returns a file
attachment with the fixed name. -/
def export_pdf (st : AppState) (_monthQ : Option String) : Response × AppState :=
  match st.session with
  | none => (.redirect "/", st)
  | some _user => (.file "Expense_Report.pdf", st)

/-- Number of budget rows for an (identity, month) pair. -/
def countPair (bs : List BudgetRow) (u m : String) : Nat :=
  bs.countP (fun b => b.user == u && b.month == m)

/-- A sequence of set-budget operations `(user, month, amount)` applied to
the `budgets` table, threading the autoincrement id. -/
def runSetBudgets (start : List BudgetRow × Nat)
    (ops : List (String × String × ℚ)) : List BudgetRow × Nat :=
  ops.foldl (fun acc op => (budgetsAfterSet acc.1 acc.2 op.1 op.2.1 op.2.2, acc.2 + 1)) start

/-- Fixture: a state with no active session. -/
def stNoSession : AppState :=
  { users := [], expenses := [], budgets := [], session := none,
    nextExpenseId := 1, nextBudgetId := 1 }

/-- Fixture: "alice" logged in, all tables empty. -/
def stAlice : AppState :=
  { users := [{ username := "alice", password := "pw", attempts := 0, lock_time := none }],
    expenses := [], budgets := [], session := some "alice",
    nextExpenseId := 1, nextBudgetId := 1 }

/-- Fixture: "alice" logged in; the only expense row belongs to "bob". -/
def stForeign : AppState :=
  { users := [],
    expenses := [{ id := 1, user := "bob", amount := Val.num 5,
                   category := "food", date := "2024-01-05" }],
    budgets := [], session := some "alice", nextExpenseId := 2, nextBudgetId := 1 }

/-- Fixture: "alice" logged in with a zero budget for 2024-01 and no expenses. -/
def stZeroBudget : AppState :=
  { users := [], expenses := [],
    budgets := [{ id := 1, user := "alice", month := "2024-01", amount := 0 }],
    session := some "alice", nextExpenseId := 1, nextBudgetId := 2 }

/-- Fixture: "alice" after two consecutive failed attempts, no lock. -/
def dbTwoFails : UserDb :=
  [{ username := "alice", password := "pw", attempts := 2, lock_time := none }]

/-- Fixture: "alice" locked at time 1000 with the counter at the threshold. -/
def dbLocked : UserDb :=
  [{ username := "alice", password := "pw", attempts := 3, lock_time := some 1000 }]

/-- Fixture: "alice" with a long-expired lock and the counter below threshold. -/
def dbOldLock : UserDb :=
  [{ username := "alice", password := "pw", attempts := 2, lock_time := some 10 }]

/-- Reading back the row of `u` after an `UPDATE ... WHERE username=?` that
does not change usernames yields the updated row. -/
theorem find_update (db : UserDb) (u : String) (f : UserRec → UserRec) (r : UserRec)
    (hf : ∀ x, (f x).username = x.username)
    (hr : findUser db u = some r) :
    findUser (updateUser db u f) u = some (f r) := by
  induction db with
  | nil => simp [findUser] at hr
  | cons a rest ih =>
    by_cases h : (a.username == u) = true
    · have hra : a = r := by
        unfold findUser at hr
        rw [List.find?_cons_of_pos (p := fun x : UserRec => x.username == u) _ h] at hr
        exact Option.some.inj hr
      subst hra
      have h2 : ((f a).username == u) = true := by rw [hf a]; exact h
      have h3 : updateUser (a :: rest) u f = f a :: updateUser rest u f := by
        unfold updateUser
        rw [List.map_cons, if_pos h]
      rw [h3]
      unfold findUser
      exact List.find?_cons_of_pos (p := fun x : UserRec => x.username == u) _ h2
    · have h2 : findUser rest u = some r := by
        unfold findUser at hr
        rw [List.find?_cons_of_neg (p := fun x : UserRec => x.username == u) _ h] at hr
        exact hr
      have h3 : updateUser (a :: rest) u f = a :: updateUser rest u f := by
        unfold updateUser
        rw [List.map_cons, if_neg h]
      rw [h3]
      unfold findUser
      rw [List.find?_cons_of_neg (p := fun x : UserRec => x.username == u) _ h]
      exact ih h2

/-- Mapping a function that fixes every element of a list is the identity. -/
theorem map_eq_self_of {α : Type} (l : List α) (f : α → α) (h : ∀ x ∈ l, f x = x) :
    l.map f = l := by
  induction l with
  | nil => rfl
  | cons a rest ih =>
    simp only [List.map_cons]
    rw [h a (List.mem_cons_self a rest), ih (fun x hx => h x (List.mem_cons_of_mem a hx))]

/-- An ownership-scoped `WHERE id=? AND user=?` test is boolean-false on a row
that is not the caller-owned target. -/
theorem target_miss (e : Expense) (i : Nat) (u : String)
    (h : ¬(e.id = i ∧ e.user = u)) : (e.id == i && e.user == u) = false := by
  cases hb : (e.id == i && e.user == u) with
  | false => rfl
  | true =>
    exfalso
    simp only [Bool.and_eq_true, beq_iff_eq] at hb
    exact h hb

/-- One `defaultdict` accumulation adds exactly its value to the sum of the
dictionary values. -/
theorem accumKey_snd_sum (acc : List (String × ℚ)) (k : String) (v : ℚ) :
    ((accumKey acc k v).map Prod.snd).sum = (acc.map Prod.snd).sum + v := by
  induction acc with
  | nil => simp [accumKey]
  | cons a rest ih =>
    obtain ⟨k0, v0⟩ := a
    by_cases h : (k0 == k) = true
    · have hstep : accumKey ((k0, v0) :: rest) k v = (k0, v0 + v) :: rest := by
        simp only [accumKey]
        rw [if_pos h]
      rw [hstep]
      simp only [List.map_cons, List.sum_cons]
      ring
    · have hstep : accumKey ((k0, v0) :: rest) k v = (k0, v0) :: accumKey rest k v := by
        simp only [accumKey]
        rw [if_neg h]
      rw [hstep]
      simp only [List.map_cons, List.sum_cons, ih]
      ring

/-- Folding `defaultdict` accumulations over an expense list adds the lenient
total of the list to the sum of the dictionary values. -/
theorem foldl_accumKey_sum (keyOf : Expense → String) (es : List Expense)
    (acc : List (String × ℚ)) :
    ((es.foldl (fun a e => accumKey a (keyOf e) (parse_float_safe e.amount)) acc).map
        Prod.snd).sum = (acc.map Prod.snd).sum + listTotal es := by
  induction es generalizing acc with
  | nil => simp [listTotal]
  | cons e rest ih =>
    simp only [List.foldl_cons]
    rw [ih, accumKey_snd_sum]
    simp only [listTotal, List.map_cons, List.sum_cons]
    ring

/-- The values of `CategoryTotals` sum to the lenient total of the same list. -/
theorem catTotals_sum (es : List Expense) :
    ((catTotals es).map Prod.snd).sum = listTotal es := by
  simpa using foldl_accumKey_sum (fun e => e.category) es []

/-- Characterisation of the Python-truthiness alert expression. -/
theorem pyBudgetAlert_iff (bo : Option ℚ) (t : ℚ) :
    pyBudgetAlert bo t = true ↔ ∃ b, bo = some b ∧ b ≠ 0 ∧ b ≤ t := by
  cases bo with
  | none => simp [pyBudgetAlert]
  | some b =>
    by_cases hb : b = 0
    · simp [pyBudgetAlert, hb]
    · simp [pyBudgetAlert, hb]

/-- Rows removed by a `DELETE WHERE p` are not counted by `p` afterwards. -/
theorem countP_filter_not (bs : List BudgetRow) (p : BudgetRow → Bool) :
    (bs.filter (fun b => !(p b))).countP p = 0 := by
  induction bs with
  | nil => rfl
  | cons b rest ih =>
    by_cases h : p b = true
    · simp [List.filter_cons, h, ih]
    · simp [List.filter_cons, h, List.countP_cons, ih]

/-- A `DELETE WHERE p` does not change the count of rows matched by a
predicate disjoint from `p`. -/
theorem countP_filter_of_imp (bs : List BudgetRow) (p q : BudgetRow → Bool)
    (h : ∀ b, q b = true → p b = false) :
    (bs.filter (fun b => !(p b))).countP q = bs.countP q := by
  induction bs with
  | nil => rfl
  | cons b rest ih =>
    by_cases hp : p b = true
    · have hq : q b = false := by
        cases hqb : q b with
        | false => rfl
        | true =>
          have := h b hqb
          rw [hp] at this
          exact absurd this (by simp)
      simp [List.filter_cons, hp, List.countP_cons, hq, ih]
    · simp [List.filter_cons, hp, List.countP_cons, ih]

/-- After a delete-then-insert set operation, exactly one budget row matches
the pair that was set. -/
theorem countPair_budgetsAfterSet_self (bs : List BudgetRow) (nid : Nat)
    (u m : String) (a : ℚ) :
    countPair (budgetsAfterSet bs nid u m a) u m = 1 := by
  unfold countPair budgetsAfterSet
  rw [List.countP_append, countP_filter_not]
  simp [List.countP_cons]

/-- A set operation for one pair does not change the row count of any other
pair. -/
theorem countPair_budgetsAfterSet_other (bs : List BudgetRow) (nid : Nat)
    (u m uo mo : String) (a : ℚ) (hne : ¬(uo = u ∧ mo = m)) :
    countPair (budgetsAfterSet bs nid u m a) uo mo = countPair bs uo mo := by
  unfold countPair budgetsAfterSet
  rw [List.countP_append]
  have h1 : List.countP (fun b => b.user == uo && b.month == mo)
      [({ id := nid, user := u, month := m, amount := a } : BudgetRow)] = 0 := by
    simp only [List.countP_cons, List.countP_nil]
    cases hb : (({ id := nid, user := u, month := m, amount := a } : BudgetRow).user == uo &&
        ({ id := nid, user := u, month := m, amount := a } : BudgetRow).month == mo) with
    | false => rfl
    | true =>
      exfalso
      simp only [Bool.and_eq_true, beq_iff_eq] at hb
      exact hne ⟨hb.1.symm, hb.2.symm⟩
  rw [h1]
  have h2 : ∀ b : BudgetRow, (b.user == uo && b.month == mo) = true →
      (b.user == u && b.month == m) = false := by
    intro b hb
    simp only [Bool.and_eq_true, beq_iff_eq] at hb
    cases hpb : (b.user == u && b.month == m) with
    | false => rfl
    | true =>
      exfalso
      simp only [Bool.and_eq_true, beq_iff_eq] at hpb
      exact hne ⟨hb.1.symm.trans hpb.1, hb.2.symm.trans hpb.2⟩
  rw [countP_filter_of_imp bs _ _ h2]
  omega

/-- If a pair already has exactly one budget row, any further sequence of set
operations keeps it at exactly one. -/
theorem countPair_runSetBudgets_preserved (ops : List (String × String × ℚ))
    (bs : List BudgetRow) (nid : Nat) (u m : String)
    (h : countPair bs u m = 1) :
    countPair (runSetBudgets (bs, nid) ops).1 u m = 1 := by
  induction ops generalizing bs nid with
  | nil => simpa [runSetBudgets] using h
  | cons op rest ih =>
    have hstep : runSetBudgets (bs, nid) (op :: rest) =
        runSetBudgets (budgetsAfterSet bs nid op.1 op.2.1 op.2.2, nid + 1) rest := rfl
    rw [hstep]
    apply ih
    by_cases hop : u = op.1 ∧ m = op.2.1
    · rw [hop.1, hop.2]
      exact countPair_budgetsAfterSet_self bs nid op.1 op.2.1 op.2.2
    · rw [countPair_budgetsAfterSet_other bs nid op.1 op.2.1 u m op.2.2 hop]
      exact h

/-- If a pair is set at least once in a sequence of set operations, exactly
one budget row for it remains at the end, whatever the starting table. -/
theorem countPair_runSetBudgets_eq_one (ops : List (String × String × ℚ))
    (bs : List BudgetRow) (nid : Nat) (u m : String) (a : ℚ)
    (h : (u, m, a) ∈ ops) :
    countPair (runSetBudgets (bs, nid) ops).1 u m = 1 := by
  induction ops generalizing bs nid with
  | nil => cases h
  | cons op rest ih =>
    have hstep : runSetBudgets (bs, nid) (op :: rest) =
        runSetBudgets (budgetsAfterSet bs nid op.1 op.2.1 op.2.2, nid + 1) rest := rfl
    rw [hstep]
    rcases List.mem_cons.mp h with heq | hmem
    · subst heq
      exact countPair_runSetBudgets_preserved rest _ _ u m
        (countPair_budgetsAfterSet_self bs nid u m a)
    · exact ih _ _ hmem

/-- C7: for every expense working set the dashboard produces (filtered or
not), the sum over all category labels of the CategoryTotals values equals
the Total computed over the same working set, both using the lenient-parse
rule. -/
theorem category_totals_sum_eq_total (st : AppState) (u : String)
    (monthQ : Option String) (nowMonth : String) :
    (((dashboardData st u monthQ nowMonth).category_amounts).map Prod.snd).sum =
      (dashboardData st u monthQ nowMonth).total := by
  cases monthQ with
  | none => simp only [dashboardData, catTotals_sum]
  | some m => simp only [dashboardData, catTotals_sum]

/-- C8: the MonthlyTotals mapping the dashboard renders is the same with and
without a month filter — it is computed over the entire unfiltered expense
set of the identity, keyed by the first 7 characters of each date — while
Total and CategoryTotals are computed over the month-filtered working set. -/
theorem monthly_totals_filter_invariant (st : AppState)
    (u m nowMonth nowMonth2 : String) :
    (dashboardData st u (some m) nowMonth).monthly_totals =
      (dashboardData st u none nowMonth2).monthly_totals ∧
    (dashboardData st u (some m) nowMonth).monthly_totals =
      monthTotals (userExpenses st u) ∧
    (dashboardData st u (some m) nowMonth).total =
      listTotal (filterMonth (userExpenses st u) m) ∧
    (dashboardData st u (some m) nowMonth).category_amounts =
      catTotals (filterMonth (userExpenses st u) m) := by
  exact ⟨rfl, rfl, rfl, rfl⟩

/-- C3, counterexample: with a budget row of amount 0 for the effective month
and an empty (total 0) expense set, the claim demands an alert (a budget row
exists and 0 ≥ 0), but the code computes `bool(0.0 and ...) = False` because
`0.0` is falsy in Python. -/
theorem zero_budget_no_alert :
    (dashboardData stZeroBudget "alice" (some "2024-01") "2024-01").budget_alert = false ∧
    (dashboardData stZeroBudget "alice" (some "2024-01") "2024-01").budget = some 0 ∧
    (dashboardData stZeroBudget "alice" (some "2024-01") "2024-01").total = 0 ∧
    specBudgetAlert
      (dashboardData stZeroBudget "alice" (some "2024-01") "2024-01").budget
      (dashboardData stZeroBudget "alice" (some "2024-01") "2024-01").total = true := by
  refine ⟨by decide, by decide, by decide, by decide⟩

/-- C3, amended: BudgetAlert is true if and only if a budget row exists for
(identity, effective month) with a nonzero amount, and the Total of the
effective month's working set is at least that amount.  (The zero-amount
exception comes from Python's truthiness of `0.0` in
`bool(budget and total >= budget)`.) -/
theorem budget_alert_iff (st : AppState) (u : String) (monthQ : Option String)
    (nowMonth : String) :
    (dashboardData st u monthQ nowMonth).budget_alert = true ↔
      ∃ row, findBudget st.budgets u (effectiveMonth monthQ nowMonth) = some row ∧
        row.amount ≠ 0 ∧
        row.amount ≤ (dashboardData st u monthQ nowMonth).total := by
  cases hfb : findBudget st.budgets u (effectiveMonth monthQ nowMonth) with
  | none =>
    cases monthQ with
    | none =>
      simp [dashboardData, effectiveMonth] at hfb ⊢
      simp [hfb, pyBudgetAlert]
    | some m =>
      simp [dashboardData, effectiveMonth] at hfb ⊢
      simp [hfb, pyBudgetAlert]
  | some row =>
    cases monthQ with
    | none =>
      simp [dashboardData, effectiveMonth] at hfb ⊢
      simp [hfb, pyBudgetAlert_iff]
    | some m =>
      simp [dashboardData, effectiveMonth] at hfb ⊢
      simp [hfb, pyBudgetAlert_iff]

/-- C1, counterexample: with no active session, the `delete` route does not
redirect to the login entry point — the unguarded `session["user"]` lookup
raises, yielding a server error (though indeed no state changes). -/
theorem unauth_delete_not_redirect :
    delete stNoSession 1 = (Response.serverError, stNoSession) ∧
    Response.serverError ≠ Response.redirect "/" := by
  refine ⟨by decide, by decide⟩

/-- C1, amended: with no authenticated session, no operation changes state;
dashboard, add, edit and export redirect to the login entry point, while
delete, set-budget, clear-month and clear-all instead fail with a server
error from the unguarded session lookup. -/
theorem session_gate_amended (st : AppState) (h : st.session = none) :
    (∀ monthQ nowMonth, dashboard st monthQ nowMonth = (Response.redirect "/", st)) ∧
    (∀ a c d, add st a c d = (Response.redirect "/", st)) ∧
    (∀ i a c d, edit st i a c d = (Response.redirect "/", st)) ∧
    (∀ monthQ, export_pdf st monthQ = (Response.redirect "/", st)) ∧
    (∀ i, delete st i = (Response.serverError, st)) ∧
    (∀ m a, set_budget st m a = (Response.serverError, st)) ∧
    (∀ m, clear_month st m = (Response.serverError, st)) ∧
    clear_all st = (Response.serverError, st) := by
  refine ⟨?_, ?_, ?_, ?_, ?_, ?_, ?_, ?_⟩ <;>
    intros <;>
    simp [dashboard, add, edit, export_pdf, delete, set_budget, clear_month, clear_all, h]

/-- Witness for the amended C1 at a concrete sessionless state. -/
theorem session_gate_amended_witness :
    dashboard stNoSession none "2024-01" = (Response.redirect "/", stNoSession) ∧
    add stNoSession "10" "food" "2024-01-05" = (Response.redirect "/", stNoSession) ∧
    delete stNoSession 1 = (Response.serverError, stNoSession) ∧
    set_budget stNoSession "2024-01" 100 = (Response.serverError, stNoSession) ∧
    clear_all stNoSession = (Response.serverError, stNoSession) := by
  have h := session_gate_amended stNoSession rfl
  exact ⟨h.1 none "2024-01", h.2.1 "10" "food" "2024-01-05", h.2.2.2.2.1 1,
    h.2.2.2.2.2.1 "2024-01" 100, h.2.2.2.2.2.2.2⟩

/-- C2: reaching the threshold on a consecutive failed attempt persists a
lock timestamp equal to the time of that failure; any attempt while
`now < lock_time + 5 min` fails with AccountLocked regardless of the
credential (and changes nothing); once the window has elapsed a correct
credential succeeds, so the lock no longer refuses authentication. -/
theorem lockout_window (db : UserDb) (u p : String) (now : Nat) (r : UserRec)
    (hr : findUser db u = some r) :
    (lockActive r now = false → check_password_hash r.password p = false →
      MAX_LOGIN_ATTEMPTS ≤ r.attempts + 1 →
      (login db u p now).1 = LoginResult.accountLocked ∧
      findUser (login db u p now).2 u =
        some { r with attempts := r.attempts + 1, lock_time := some now }) ∧
    (∀ t, r.lock_time = some t → now < t + lockWindow →
      login db u p now = (LoginResult.accountLocked, db)) ∧
    (∀ t, r.lock_time = some t → t + lockWindow ≤ now →
      check_password_hash r.password p = true →
      (login db u p now).1 = LoginResult.success) := by
  refine ⟨?_, ?_, ?_⟩
  · intro hla hcp hth
    have hstep : login db u p now =
        (LoginResult.accountLocked, updateUser db u
          (fun x => { x with attempts := r.attempts + 1, lock_time := some now })) := by
      simp [login, hr, hla, hcp, hth]
    rw [hstep]
    exact ⟨rfl, find_update db u _ r (fun x => rfl) hr⟩
  · intro t ht hlt
    have hla : lockActive r now = true := by simp [lockActive, ht, hlt]
    simp [login, hr, hla]
  · intro t ht hexp hcp
    have hnlt : ¬ now < t + lockWindow := Nat.not_lt.mpr hexp
    have hla : lockActive r now = false := by simp [lockActive, ht, hnlt]
    simp [login, hr, hla, hcp]

/-- Witness for C2: the third consecutive failure at time 50 locks "alice"
with timestamp 50; at time 1200 (inside the window of a lock from 1000) even
the correct password is refused with AccountLocked and nothing changes; at
time 1300 the window has elapsed and the correct password succeeds. -/
theorem lockout_window_witness :
    ((login dbTwoFails "alice" "bad" 50).1 = LoginResult.accountLocked ∧
      findUser (login dbTwoFails "alice" "bad" 50).2 "alice" =
        some { username := "alice", password := "pw", attempts := 3, lock_time := some 50 }) ∧
    login dbLocked "alice" "pw" 1200 = (LoginResult.accountLocked, dbLocked) ∧
    (login dbLocked "alice" "pw" 1300).1 = LoginResult.success := by
  refine ⟨?_, ?_, ?_⟩
  · exact (lockout_window dbTwoFails "alice" "bad" 50
      { username := "alice", password := "pw", attempts := 2, lock_time := none }
      (by decide)).1 (by decide) (by decide) (by decide)
  · exact (lockout_window dbLocked "alice" "pw" 1200
      { username := "alice", password := "pw", attempts := 3, lock_time := some 1000 }
      (by decide)).2.1 1000 (by decide) (by decide)
  · exact (lockout_window dbLocked "alice" "pw" 1300
      { username := "alice", password := "pw", attempts := 3, lock_time := some 1000 }
      (by decide)).2.2 1000 (by decide) (by decide) (by decide)

/-- C4: any successful authentication stores a failed-attempt counter of 0
and a cleared (null) lock timestamp in the account row. -/
theorem success_resets_counter (db : UserDb) (u p : String) (now : Nat) (r : UserRec)
    (hr : findUser db u = some r)
    (hla : lockActive r now = false)
    (hcp : check_password_hash r.password p = true) :
    (login db u p now).1 = LoginResult.success ∧
    findUser (login db u p now).2 u = some { r with attempts := 0, lock_time := none } := by
  have hstep : login db u p now =
      (LoginResult.success, updateUser db u
        (fun x => { x with attempts := 0, lock_time := none })) := by
    simp [login, hr, hla, hcp]
  rw [hstep]
  exact ⟨rfl, find_update db u _ r (fun x => rfl) hr⟩

/-- Witness for C4: "alice" logs in correctly at time 1000 with an expired
lock from time 10 and a counter of 2; both are reset. -/
theorem success_resets_counter_witness :
    (login dbOldLock "alice" "pw" 1000).1 = LoginResult.success ∧
    findUser (login dbOldLock "alice" "pw" 1000).2 "alice" =
      some { username := "alice", password := "pw", attempts := 0, lock_time := none } := by
  exact success_resets_counter dbOldLock "alice" "pw" 1000
    { username := "alice", password := "pw", attempts := 2, lock_time := some 10 }
    (by decide) (by decide) (by decide)

/-- C10: expiry of the lock window is mere passage of time and resets
nothing, so an account that was locked still has its counter at or above the
threshold; hence the very next wrong credential after expiry immediately
re-locks the account with a fresh lock timestamp. -/
theorem expired_lock_single_failure_relocks (db : UserDb) (u p : String)
    (now t : Nat) (r : UserRec)
    (hr : findUser db u = some r)
    (ht : r.lock_time = some t)
    (hexp : t + lockWindow ≤ now)
    (hth : MAX_LOGIN_ATTEMPTS ≤ r.attempts)
    (hcp : check_password_hash r.password p = false) :
    (login db u p now).1 = LoginResult.accountLocked ∧
    findUser (login db u p now).2 u =
      some { r with attempts := r.attempts + 1, lock_time := some now } := by
  have hnlt : ¬ now < t + lockWindow := Nat.not_lt.mpr hexp
  have hla : lockActive r now = false := by simp [lockActive, ht, hnlt]
  have hth2 : MAX_LOGIN_ATTEMPTS ≤ r.attempts + 1 := Nat.le_succ_of_le hth
  have hstep : login db u p now =
      (LoginResult.accountLocked, updateUser db u
        (fun x => { x with attempts := r.attempts + 1, lock_time := some now })) := by
    simp [login, hr, hla, hcp, hth2]
  rw [hstep]
  exact ⟨rfl, find_update db u _ r (fun x => rfl) hr⟩

/-- Witness for C10: "alice", locked at 1000 with the counter at the
threshold, supplies one wrong password at 1300 (window elapsed) and is
immediately re-locked with timestamp 1300. -/
theorem expired_lock_single_failure_relocks_witness :
    (login dbLocked "alice" "bad" 1300).1 = LoginResult.accountLocked ∧
    findUser (login dbLocked "alice" "bad" 1300).2 "alice" =
      some { username := "alice", password := "pw", attempts := 4, lock_time := some 1300 } := by
  exact expired_lock_single_failure_relocks dbLocked "alice" "bad" 1300 1000
    { username := "alice", password := "pw", attempts := 3, lock_time := some 1000 }
    (by decide) (by decide) (by decide) (by decide) (by decide)

/-- C5: each set-budget first deletes every row for the (identity, month)
pair and then inserts one, so after it exactly one row exists for the pair,
other pairs are untouched, and after any sequence of set operations that
sets the pair at least once exactly one row for it remains. -/
theorem budget_row_unique (st : AppState) (u m : String) (aq : ℚ)
    (hs : st.session = some u) :
    ((set_budget st m aq).2.budgets =
      budgetsAfterSet st.budgets st.nextBudgetId u m aq) ∧
    (countPair (set_budget st m aq).2.budgets u m = 1) ∧
    (∀ uo mo, ¬(uo = u ∧ mo = m) →
      countPair (set_budget st m aq).2.budgets uo mo = countPair st.budgets uo mo) ∧
    (∀ ops bs nid b, ((u, m, b) : String × String × ℚ) ∈ ops →
      countPair (runSetBudgets (bs, nid) ops).1 u m = 1) := by
  have h1 : (set_budget st m aq).2.budgets =
      budgetsAfterSet st.budgets st.nextBudgetId u m aq := by
    simp [set_budget, hs]
  refine ⟨h1, ?_, ?_, ?_⟩
  · rw [h1]
    exact countPair_budgetsAfterSet_self _ _ _ _ _
  · intro uo mo hne
    rw [h1]
    exact countPair_budgetsAfterSet_other _ _ _ _ _ _ _ hne
  · intro ops bs nid b hmem
    exact countPair_runSetBudgets_eq_one ops bs nid u m b hmem

/-- Witness for C5: setting a budget twice for ("alice", "2024-01") leaves
exactly one row for the pair, both through the route and through an abstract
operation sequence. -/
theorem budget_row_unique_witness :
    countPair (set_budget (set_budget stAlice "2024-01" 100).2 "2024-01" 200).2.budgets
      "alice" "2024-01" = 1 ∧
    countPair (runSetBudgets ([], 1)
      [("alice", "2024-01", 100), ("alice", "2024-01", 200)]).1 "alice" "2024-01" = 1 := by
  constructor
  · exact (budget_row_unique (set_budget stAlice "2024-01" 100).2 "alice" "2024-01" 200
      rfl).2.1
  · exact (budget_row_unique stAlice "alice" "2024-01" 100 rfl).2.2.2
      [("alice", "2024-01", 100), ("alice", "2024-01", 200)] [] 1 100 (by decide)

/-- C6: an edit or delete whose target id does not exist among the session
identity's rows (missing or foreign-owned) leaves the expense table — indeed
the whole state — unchanged and responds with the normal redirect, not an
error. -/
theorem foreign_target_noop (st : AppState) (u : String) (i : Nat)
    (hs : st.session = some u)
    (hno : ∀ e ∈ st.expenses, ¬(e.id = i ∧ e.user = u)) :
    delete st i = (Response.redirect "/dashboard", st) ∧
    ∀ amount category date,
      edit st i amount category date = (Response.redirect "/dashboard", st) := by
  constructor
  · have hfilter : st.expenses.filter (fun e => !(e.id == i && e.user == u)) =
        st.expenses := by
      apply List.filter_eq_self.mpr
      intro e he
      rw [target_miss e i u (hno e he)]
      rfl
    simp only [delete, hs]
    rw [hfilter, ← hs]
  · intro amount category date
    have hmap : st.expenses.map (fun e =>
        if e.id == i && e.user == u then
          { e with amount := Val.str amount, category := category, date := date }
        else e) = st.expenses := by
      apply map_eq_self_of
      intro e he
      rw [target_miss e i u (hno e he)]
      simp
    simp only [edit, hs]
    rw [hmap, ← hs]

/-- Witness for C6: "alice" deletes and edits record 1, which belongs to
"bob"; the state is unchanged and the response is the normal redirect. -/
theorem foreign_target_noop_witness :
    delete stForeign 1 = (Response.redirect "/dashboard", stForeign) ∧
    edit stForeign 1 "999" "misc" "2024-02-02" =
      (Response.redirect "/dashboard", stForeign) := by
  have h := foreign_target_noop stForeign "alice" 1 rfl (by decide)
  exact ⟨h.1, h.2 "999" "misc" "2024-02-02"⟩

/-- C9: creating an expense stores the amount field parsed leniently (an
unparsable string is silently stored as the float 0.0, never an error),
while editing stores the submitted amount field as raw text with no coercion
or validation. -/
theorem add_coerces_edit_raw (st : AppState) (u : String) (hs : st.session = some u) :
    (∀ amount category date,
      (add st amount category date).2.expenses =
        st.expenses ++ [{ id := st.nextExpenseId, user := u,
                          amount := Val.num (parse_float_safe_str amount),
                          category := category, date := date }]) ∧
    (∀ s, pyFloat? s = none → parse_float_safe_str s = 0) ∧
    (∀ i amount category date,
      (edit st i amount category date).2.expenses =
        st.expenses.map (fun e =>
          if e.id == i && e.user == u then
            { e with amount := Val.str amount, category := category, date := date }
          else e)) := by
  refine ⟨?_, ?_, ?_⟩
  · intro amount category date
    simp [add, hs]
  · intro s h
    simp [parse_float_safe_str, h]
  · intro i amount category date
    simp [edit, hs]

/-- Witness for C9: adding with the unparsable amount "abc" stores the float
0.0; editing with "abc" stores the raw text "abc". -/
theorem add_coerces_edit_raw_witness :
    (add stAlice "abc" "food" "2024-01-05").2.expenses =
      stAlice.expenses ++ [{ id := stAlice.nextExpenseId, user := "alice",
                             amount := Val.num (parse_float_safe_str "abc"),
                             category := "food", date := "2024-01-05" }] ∧
    parse_float_safe_str "abc" = 0 ∧
    (edit stForeign 1 "abc" "food" "2024-01-05").2.expenses =
      stForeign.expenses.map (fun e =>
        if e.id == 1 && e.user == "alice" then
          { e with amount := Val.str "abc", category := "food", date := "2024-01-05" }
        else e) := by
  refine ⟨?_, ?_, ?_⟩
  · exact (add_coerces_edit_raw stAlice "alice" rfl).1 "abc" "food" "2024-01-05"
  · exact (add_coerces_edit_raw stAlice "alice" rfl).2.1 "abc" (by decide)
  · exact (add_coerces_edit_raw stForeign "alice" rfl).2.2 1 "abc" "food" "2024-01-05"

end ExpenseTracker
